import Mathlib

/-!
Verification of the eBay OAuth token manager.

Shallow embedding of the token-store and token-lifecycle logic of the
repository:

* `tokenManager.js` — file-backed store (`loadTokens`, `saveTokens`,
  `getTokens`, `isTokenExpired`, `updateAccessToken`); the whole token file
  is one JSON object mapping userId to a token record, rewritten wholesale
  on every save.
* `tokenManager.vercel.js` — Redis-backed store with the same per-key
  semantics plus `deleteTokens`.
* the Express route `GET /api/get-token/:username?` — read the record,
  classify fresh/stale with a 5-minute skew, refresh via the provider and
  persist with `updateAccessToken` when stale.
* the `GET /tokens` listing pages: the local variant embeds the raw token
  map as JSON in the HTML; the Vercel variant renders a masked copy
  (accessToken truncated to 30 characters, refreshToken to 20, each with a
  `...[hidden]` suffix).

Modelling conventions: epoch-millisecond clocks are `Int` values passed
explicitly (`Date.now()` becomes a `now` parameter; one instant per
request); JavaScript's falsy check `!tokens.expiresAt` is modelled by
`expiresAt : Option Int` being `none` or `some 0`; the provider's refresh
endpoint is an oracle `String → Except String RefreshData`; file reads that
throw (or find no file) are the `FileState.corrupt` / `FileState.absent`
constructors, matching the `try/catch` that degrades to `{}`. Successful
file writes are modelled as succeeding (write failures propagate to the
caller in the source and leave the model's scope). JSON serialization
follows `JSON.stringify(tokens, null, 2)` field-for-field in insertion
order; `substring(0, n)` becomes `takeStr` (identical on the ASCII token
strings involved).
-/

namespace EbayOAuth

/-- One stored token record, as written by `saveTokens`
(`{ accessToken, refreshToken, expiresAt, userId }`). `expiresAt` is
`Option Int` so that a record lacking the field (possible for hand-edited
or foreign JSON read back by `loadTokens`) is representable, mirroring the
dynamic check `!tokens.expiresAt`. -/
structure TokenRecord where
  accessToken : String
  refreshToken : String
  expiresAt : Option Int
  userId : String
deriving Repr, DecidableEq

/-- The token map: a JSON object keyed by userId, in insertion order. -/
abbrev TokenMap := List (String × TokenRecord)

/-- JavaScript property lookup `tokens[userId]` (keys are unique in a
parsed JSON object; first match). -/
def lookupTok : TokenMap → String → Option TokenRecord
  | [], _ => none
  | (k, v) :: rest, u => if k = u then some v else lookupTok rest u

/-- JavaScript property assignment `tokens[userId] = rec`: replace in
place when the key exists, append otherwise. -/
def insertTok : TokenMap → String → TokenRecord → TokenMap
  | [], u, r => [(u, r)]
  | (k, v) :: rest, u, r =>
      if k = u then (u, r) :: rest else (k, v) :: insertTok rest u r

/-- Key removal (Redis `DEL ebay_token:<userId>`). -/
def eraseTok (m : TokenMap) (u : String) : TokenMap :=
  m.filter (fun p => decide (p.1 ≠ u))

/-- `Object.keys(tokens)` in insertion order. -/
def keysOf (m : TokenMap) : List String :=
  m.map Prod.fst

/-- State of the backing file `tokens.json` for `tokenManager.js`:
absent (`fs.existsSync` false), unreadable/unparsable (the `catch` branch
of `loadTokens`), or present with a parsed token map. -/
inductive FileState
  | absent
  | corrupt
  | content (m : TokenMap)
deriving Repr, DecidableEq

/-- `loadTokens()` of `tokenManager.js`: returns the parsed file, and
`{}` when the file is missing or the read/parse throws. -/
def loadTokens : FileState → TokenMap
  | FileState.absent => []
  | FileState.corrupt => []
  | FileState.content m => m

/-- `saveTokens(userId, accessToken, refreshToken, expiresIn)` of
`tokenManager.js`: re-reads the whole file via `loadTokens`, sets
`tokens[userId]` to a fresh record with
`expiresAt = Date.now() + expiresIn*1000`, and rewrites the whole file. -/
def saveTokens (fs : FileState) (now : Int)
    (userId accessToken refreshToken : String) (expiresIn : Int) : FileState :=
  let tokens := loadTokens fs
  let expiresAt := now + expiresIn * 1000
  FileState.content
    (insertTok tokens userId ⟨accessToken, refreshToken, some expiresAt, userId⟩)

/-- `getTokens(userId)` of `tokenManager.js`: `tokens[userId] || null`. -/
def getTokens (fs : FileState) (userId : String) : Option TokenRecord :=
  lookupTok (loadTokens fs) userId

/-- The 5-minute refresh skew (`5 * 60 * 1000` ms) from `isTokenExpired`. -/
def REFRESH_SKEW : Int := 5 * 60 * 1000

/-- `isTokenExpired(userId)` of `tokenManager.js`: true when the record is
missing, when `expiresAt` is falsy (`none` or `0`), or when
`Date.now() >= expiresAt - 5*60*1000`. -/
def isTokenExpired (fs : FileState) (now : Int) (userId : String) : Bool :=
  match getTokens fs userId with
  | none => true
  | some t =>
      match t.expiresAt with
      | none => true
      | some e => if e = 0 then true else decide (now ≥ e - REFRESH_SKEW)

/-- `updateAccessToken(userId, accessToken, expiresIn)` of
`tokenManager.js`: re-reads the file; when the record exists, mutates only
`accessToken` and `expiresAt` and rewrites the file; when absent, performs
no write at all. -/
def updateAccessToken (fs : FileState) (now : Int)
    (userId accessToken : String) (expiresIn : Int) : FileState :=
  let tokens := loadTokens fs
  match lookupTok tokens userId with
  | none => fs
  | some t =>
      FileState.content
        (insertTok tokens userId
          { t with accessToken := accessToken
                   expiresAt := some (now + expiresIn * 1000) })

/-- The `module.exports` list of `tokenManager.js` (file backend). -/
def fileBackendExports : List String :=
  ["loadTokens", "saveTokens", "getTokens", "isTokenExpired", "updateAccessToken"]

/-- The `module.exports` list of `tokenManager.vercel.js` (Redis backend). -/
def vercelBackendExports : List String :=
  ["loadTokens", "saveTokens", "getTokens", "isTokenExpired",
   "updateAccessToken", "deleteTokens"]

/-- Redis connection state for `tokenManager.vercel.js`: a failed backend
read (the `catch` branches) or a reachable store holding a token map
(one `ebay_token:<userId>` key per entry). -/
inductive RedisConn
  | failed
  | ok (m : TokenMap)
deriving Repr, DecidableEq

/-- `loadTokens()` of `tokenManager.vercel.js`: scans the `ebay_token:*`
keys into a map; `{}` when there are no keys or the read throws. -/
def loadTokensV : RedisConn → TokenMap
  | RedisConn.failed => []
  | RedisConn.ok m => m

/-- `getTokens(userId)` of `tokenManager.vercel.js` on a reachable store. -/
def getTokensV (m : TokenMap) (userId : String) : Option TokenRecord :=
  lookupTok m userId

/-- `isTokenExpired(userId)` of `tokenManager.vercel.js` (same rule as the
file backend). -/
def isTokenExpiredV (m : TokenMap) (now : Int) (userId : String) : Bool :=
  match getTokensV m userId with
  | none => true
  | some t =>
      match t.expiresAt with
      | none => true
      | some e => if e = 0 then true else decide (now ≥ e - REFRESH_SKEW)

/-- `saveTokens` of `tokenManager.vercel.js`: one `SET` of the key for
`userId` with `expiresAt = Date.now() + expiresIn*1000`. -/
def saveTokensV (m : TokenMap) (now : Int)
    (userId accessToken refreshToken : String) (expiresIn : Int) : TokenMap :=
  insertTok m userId
    ⟨accessToken, refreshToken, some (now + expiresIn * 1000), userId⟩

/-- `updateAccessToken` of `tokenManager.vercel.js`: reads the record; if
present mutates only `accessToken`/`expiresAt` and writes it back; if
absent issues no write. -/
def updateAccessTokenV (m : TokenMap) (now : Int)
    (userId accessToken : String) (expiresIn : Int) : TokenMap :=
  match lookupTok m userId with
  | none => m
  | some t =>
      insertTok m userId
        { t with accessToken := accessToken
                 expiresAt := some (now + expiresIn * 1000) }

/-- `deleteTokens(userId)` of `tokenManager.vercel.js`: `DEL` of the key;
Redis `DEL` does not fail on a missing key. -/
def deleteTokensV (m : TokenMap) (userId : String) : TokenMap :=
  eraseTok m userId

/-- The provider's refresh-token exchange response
(`{ access_token, expires_in }` as consumed by the route). -/
structure RefreshData where
  access_token : String
  expires_in : Int
deriving Repr, DecidableEq

/-- Successful `GET /api/get-token` payload
`{ username, accessToken, refreshed }`. -/
structure GetTokenOk where
  username : String
  accessToken : String
  refreshed : Bool
deriving Repr, DecidableEq

/-- Outcome of `GET /api/get-token/:username?`: a 404 with its message and
optional `availableUsers` list, a 200 payload, or a 500 from a failed
provider call. -/
inductive GetTokenResult
  | notFound (message : String) (availableUsers : Option (List String))
  | ok (r : GetTokenOk)
  | serverError (message : String)
deriving Repr, DecidableEq

/-- The handler of `GET /api/get-token/:username?` (server `part_001`,
lines 141–174; the `part_000` variants are the same logic): load all
tokens; empty store → a generic 404; resolve the username
(`req.params.username || users[0]`, the empty string being falsy); missing
record → 404 naming the user with `availableUsers`; stale record → one
provider refresh call then `updateAccessToken` and `refreshed=true`; fresh
record → the stored token, no write. Returns the HTTP outcome, the store
state after the request, and the number of provider refresh calls made. -/
def getValidAccessToken (fs : FileState) (now : Int) (param : Option String)
    (refreshCall : String → Except String RefreshData) :
    GetTokenResult × FileState × Nat :=
  let allTokens := loadTokens fs
  match keysOf allTokens with
  | [] =>
      (GetTokenResult.notFound "No tokens found. Authorize first at /auth/login" none,
       fs, 0)
  | u0 :: rest =>
      let users := u0 :: rest
      let username :=
        match param with
        | some s => if s = "" then u0 else s
        | none => u0
      match getTokens fs username with
      | none =>
          (GetTokenResult.notFound ("No tokens for user: " ++ username) (some users),
           fs, 0)
      | some tokens =>
          if isTokenExpired fs now username then
            match refreshCall tokens.refreshToken with
            | Except.ok data =>
                (GetTokenResult.ok ⟨username, data.access_token, true⟩,
                 updateAccessToken fs now username data.access_token data.expires_in,
                 1)
            | Except.error msg => (GetTokenResult.serverError msg, fs, 1)
          else
            (GetTokenResult.ok ⟨username, tokens.accessToken, false⟩, fs, 0)

/-- `s.substring(0, n)`: the first `n` characters (identical to the
JavaScript call on the ASCII token strings this system handles). -/
def takeStr (s : String) (n : Nat) : String :=
  ⟨s.data.take n⟩

/-- One JSON-escaped character, as `JSON.stringify` escapes the common
cases (quote, backslash, newline, carriage return, tab). -/
def jsonEscapeChar (c : Char) : String :=
  if c = Char.ofNat 34 then "\\\""
  else if c = Char.ofNat 92 then "\\\\"
  else if c = Char.ofNat 10 then "\\n"
  else if c = Char.ofNat 13 then "\\r"
  else if c = Char.ofNat 9 then "\\t"
  else ⟨[c]⟩

/-- JSON string-body escaping. -/
def jsonEscape (s : String) : String :=
  String.join (s.data.map jsonEscapeChar)

/-- A JSON string literal. -/
def jsonStr (s : String) : String :=
  "\"" ++ jsonEscape s ++ "\""

/-- Separator-joined concatenation (`Array.prototype.join`). -/
def joinSep (sep : String) : List String → String
  | [] => ""
  | [x] => x
  | x :: y :: ys => x ++ sep ++ joinSep sep (y :: ys)

/-- The fields of one record as `JSON.stringify` emits them, in the
insertion order of the object literal in `saveTokens`
(`accessToken, refreshToken, expiresAt, userId`); an absent `expiresAt`
(an `undefined` property) is omitted. -/
def jsonRecordFields (r : TokenRecord) : List String :=
  ["\"accessToken\": " ++ jsonStr r.accessToken,
   "\"refreshToken\": " ++ jsonStr r.refreshToken]
  ++ (match r.expiresAt with
      | none => []
      | some e => ["\"expiresAt\": " ++ toString e])
  ++ ["\"userId\": " ++ jsonStr r.userId]

/-- One record rendered by `JSON.stringify(tokens, null, 2)` at nesting
depth one (fields indented four spaces, closing brace two). -/
def jsonRecord (r : TokenRecord) : String :=
  "\x7b\n" ++ joinSep ",\n" ((jsonRecordFields r).map (fun f => "    " ++ f))
  ++ "\n  \x7d"

/-- `JSON.stringify(tokens, null, 2)` for the whole token map. -/
def jsonTokens (m : TokenMap) : String :=
  match m with
  | [] => "\x7b\x7d"
  | _ =>
      "\x7b\n"
      ++ joinSep ",\n"
          (m.map (fun p => "  " ++ jsonStr p.1 ++ ": " ++ jsonRecord p.2))
      ++ "\n\x7d"

/-- The HTML branch of `GET /tokens` in server `part_001` (lines
207–213): user list followed by `'<h3>Raw JSON:</h3><pre>' +
JSON.stringify(tokens, null, 2) + '</pre>'` — the raw, unmasked map. -/
def renderTokensPageLocal (m : TokenMap) : String :=
  let users := keysOf m
  "<h1>Stored Tokens</h1>"
  ++ "<p><strong>" ++ toString users.length ++ "</strong> user(s) authorized</p><ul>"
  ++ String.join (users.map (fun user =>
      "<li><strong>" ++ user ++ "</strong> - <a href=\"/api/get-token/" ++ user
      ++ "\">Get Token</a> | <a href=\"/api/test/" ++ user ++ "\">Test</a></li>"))
  ++ "</ul><hr><p><a href=\"/auth/login\">Add Another User</a></p>"
  ++ "<h3>Raw JSON:</h3><pre>" ++ jsonTokens m ++ "</pre>"

/-- The masking of one record in the Vercel `GET /tokens` page
(server `part_000`, lines 957–965): `accessToken` truncated to its first
30 characters and `refreshToken` to its first 20, each suffixed
`...[hidden]`; other fields kept. -/
def maskRecord (r : TokenRecord) : TokenRecord :=
  { r with accessToken := takeStr r.accessToken 30 ++ "...[hidden]"
           refreshToken := takeStr r.refreshToken 20 ++ "...[hidden]" }

/-- `maskedTokens` of the Vercel `GET /tokens` page: every record masked. -/
def maskTokens (m : TokenMap) : TokenMap :=
  m.map (fun p => (p.1, maskRecord p.2))

/-- Static head of the Vercel `GET /tokens` page (doctype, title and CSS;
contains no data derived from the token map, so it is kept as one opaque
literal here). -/
def vercelTokensHead : String :=
  "<!DOCTYPE html><html><head><title>Stored Tokens - eBay OAuth</title><style>(static styles)</style></head><body>"

/-- The HTML branch of the Vercel `GET /tokens` route (server `part_000`,
lines 895–978): header, user list, then
`JSON.stringify(maskedTokens, null, 2)` — only the masked map reaches the
page. -/
def renderTokensPageVercel (m : TokenMap) : String :=
  let users := keysOf m
  vercelTokensHead
  ++ "<h1>🔑 Stored Tokens</h1><p><span class=\"count\">" ++ toString users.length
  ++ "</span> user(s) authorized</p><ul>"
  ++ String.join (users.map (fun user =>
      "<li><strong>" ++ user ++ "</strong><span><a href=\"/api/get-token/" ++ user
      ++ "\">Get Token</a><a href=\"/api/test/" ++ user ++ "\">Test</a></span></li>"))
  ++ "</ul><h3>Raw Data (tokens masked):</h3><pre>" ++ jsonTokens (maskTokens m)
  ++ "</pre><a href=\"/\" class=\"home-link\">← Back to Home</a></body></html>"

/-- `true` when `pat` occurs as a contiguous substring of `s`
(via the character lists). -/
def isPrefixL : List Char → List Char → Bool
  | [], _ => true
  | _ :: _, [] => false
  | a :: as, b :: bs => a = b && isPrefixL as bs

/-- Substring occurrence on character lists. -/
def containsSub (pat : List Char) : List Char → Bool
  | [] => isPrefixL pat []
  | c :: rest => isPrefixL pat (c :: rest) || containsSub pat rest

/-- `true` when `pat` occurs as a contiguous substring of `s`. -/
def containsStr (s pat : String) : Bool :=
  containsSub pat.data s.data

/-- Two records whose token prefixes (30 characters of `accessToken`,
20 of `refreshToken`) and non-secret fields agree; the masked rendering
cannot distinguish them. -/
def maskAgree (r r' : TokenRecord) : Prop :=
  takeStr r.accessToken 30 = takeStr r'.accessToken 30 ∧
  takeStr r.refreshToken 20 = takeStr r'.refreshToken 20 ∧
  r.expiresAt = r'.expiresAt ∧
  r.userId = r'.userId

/-! ### Map lemmas -/

theorem lookupTok_insertTok_self (m : TokenMap) (u : String) (r : TokenRecord) :
    lookupTok (insertTok m u r) u = some r := by
  induction m with
  | nil => simp [insertTok, lookupTok]
  | cons p rest ih =>
      obtain ⟨k, v⟩ := p
      by_cases h : k = u
      · simp [insertTok, h, lookupTok]
      · simp [insertTok, h, lookupTok, ih]

theorem lookupTok_insertTok_ne (m : TokenMap) (u v : String) (r : TokenRecord)
    (hv : v ≠ u) :
    lookupTok (insertTok m u r) v = lookupTok m v := by
  induction m with
  | nil => simp [insertTok, lookupTok, Ne.symm hv]
  | cons p rest ih =>
      obtain ⟨k, w⟩ := p
      by_cases h : k = u
      · subst h
        simp [insertTok, lookupTok, Ne.symm hv]
      · simp [insertTok, h, lookupTok, ih]

theorem lookupTok_eraseTok_self (m : TokenMap) (u : String) :
    lookupTok (eraseTok m u) u = none := by
  induction m with
  | nil => simp [eraseTok, lookupTok]
  | cons p rest ih =>
      obtain ⟨k, v⟩ := p
      by_cases h : k = u
      · simpa [eraseTok, List.filter_cons, h] using ih
      · simpa [eraseTok, List.filter_cons, h, lookupTok] using ih

theorem eraseTok_idem (m : TokenMap) (u : String) :
    eraseTok (eraseTok m u) u = eraseTok m u := by
  induction m with
  | nil => simp [eraseTok]
  | cons p rest ih =>
      obtain ⟨k, v⟩ := p
      by_cases h : k = u
      · simp [eraseTok, List.filter_cons, h]
      · simp [eraseTok, List.filter_cons, h]

theorem eraseTok_absent (m : TokenMap) (u : String)
    (h : lookupTok m u = none) : eraseTok m u = m := by
  induction m with
  | nil => simp [eraseTok]
  | cons p rest ih =>
      obtain ⟨k, v⟩ := p
      by_cases hk : k = u
      · simp [lookupTok, hk] at h
      · simp [lookupTok, hk] at h
        simp [eraseTok, List.filter_cons, hk] at ih ⊢
        exact ih h

/-! ### Claim theorems -/

/-- C1. The staleness check `isTokenExpired` classifies an absent record,
or a record whose `expiresAt` is missing, as stale (`true`); a record with
`expiresAt = e` is fresh (`false`) exactly when `now < e - 5*60*1000`
(for any real clock value `now ≥ 0`; with `expiresAt = 0`, a falsy value in
the source, the record is stale, which agrees with the inequality for
`now ≥ 0`). The Redis backend's check agrees with the file backend's. -/
theorem isTokenExpired_classification (fs : FileState) (now : Int) (u : String)
    (hnow : 0 ≤ now) :
    (getTokens fs u = none → isTokenExpired fs now u = true) ∧
    (∀ t, getTokens fs u = some t → t.expiresAt = none →
      isTokenExpired fs now u = true) ∧
    (∀ t e, getTokens fs u = some t → t.expiresAt = some e →
      (isTokenExpired fs now u = false ↔ now < e - REFRESH_SKEW)) ∧
    (∀ m, isTokenExpiredV m now u = isTokenExpired (FileState.content m) now u) := by
  refine ⟨?_, ?_, ?_, fun _ => rfl⟩
  · intro h
    simp [isTokenExpired, h]
  · intro t ht he
    simp [isTokenExpired, ht, he]
  · intro t e ht he
    simp only [isTokenExpired, ht, he]
    by_cases h0 : e = 0
    · subst h0
      simp only [if_pos rfl, REFRESH_SKEW]
      constructor
      · intro h
        exact absurd h (by simp)
      · intro h
        omega
    · rw [if_neg h0]
      simp only [decide_eq_false_iff_not, not_le]

theorem isTokenExpired_classification_witness :
    (0 : Int) ≤ 0 ∧
    isTokenExpired
      (FileState.content [("alice", ⟨"AT", "RT", some 1000000, "alice"⟩)])
      0 "alice" = false :=
  ⟨by decide,
   ((isTokenExpired_classification
      (FileState.content [("alice", ⟨"AT", "RT", some 1000000, "alice"⟩)])
      0 "alice" (by decide)).2.2.1
      ⟨"AT", "RT", some 1000000, "alice"⟩ 1000000 rfl rfl).mpr (by decide)⟩

/-- C4. Round-trip: `saveTokens(u, a, r, e)` at clock `now` followed by
`getTokens(u)` yields the record `⟨a, r, now + e*1000, u⟩`, in both the
file backend and the Redis backend (the single-instant clock model makes
"within computation tolerance" exact). -/
theorem saveTokens_getTokens_roundtrip (fs : FileState) (m : TokenMap)
    (now : Int) (u a r : String) (e : Int) :
    getTokens (saveTokens fs now u a r e) u =
      some ⟨a, r, some (now + e * 1000), u⟩ ∧
    getTokensV (saveTokensV m now u a r e) u =
      some ⟨a, r, some (now + e * 1000), u⟩ := by
  constructor
  · exact lookupTok_insertTok_self (loadTokens fs) u _
  · exact lookupTok_insertTok_self m u _

/-- C9. `loadTokens` never fails its caller: an absent backing file, a
file whose read or parse throws, and a failed Redis read all yield the
empty map, while an intact store yields its contents. -/
theorem loadTokens_degrades_to_empty :
    loadTokens FileState.absent = [] ∧
    loadTokens FileState.corrupt = [] ∧
    (∀ m : TokenMap, loadTokens (FileState.content m) = m) ∧
    loadTokensV RedisConn.failed = [] ∧
    (∀ m : TokenMap, loadTokensV (RedisConn.ok m) = m) :=
  ⟨rfl, rfl, fun _ => rfl, rfl, fun _ => rfl⟩

/-- C10. The file backend's `saveTokens` rewrites the whole file as the
map returned by its own `loadTokens()` call plus `u`'s new record: every
other user `v ≠ u` ends up with exactly the record that `loadTokens()`
returned for `v`; in particular, when the read degraded to the empty map
(`FileState.corrupt`), the save erases every other user's record. -/
theorem saveTokens_frame (fs : FileState) (now : Int) (u a r : String)
    (e : Int) (v : String) (hv : v ≠ u) :
    getTokens (saveTokens fs now u a r e) v = lookupTok (loadTokens fs) v ∧
    (fs = FileState.corrupt → getTokens (saveTokens fs now u a r e) v = none) := by
  constructor
  · exact lookupTok_insertTok_ne (loadTokens fs) u v _ hv
  · intro h
    subst h
    simp [getTokens, saveTokens, loadTokens, insertTok, lookupTok, Ne.symm hv]

theorem saveTokens_frame_witness :
    "bob" ≠ "alice" ∧
    getTokens (saveTokens FileState.corrupt 0 "alice" "A" "R" 7200) "bob" = none :=
  ⟨by decide,
   (saveTokens_frame FileState.corrupt 0 "alice" "A" "R" 7200 "bob" (by decide)).2 rfl⟩

/-- A demonstration record used by concrete witnesses. -/
def demoRec : TokenRecord := ⟨"AT0", "RT0", some 1000000, "alice"⟩

/-- C7. `updateAccessToken` on a nonexistent userId is a no-op (no write,
the store state is unchanged, so a subsequent `get` still returns absent);
on an existing userId it mutates only `accessToken` and `expiresAt`,
preserving `refreshToken` and `userId`. Both backends. -/
theorem updateAccessToken_frame (fs : FileState) (m : TokenMap) (now : Int)
    (u a : String) (e : Int) :
    (getTokens fs u = none → updateAccessToken fs now u a e = fs) ∧
    (∀ t, getTokens fs u = some t →
      getTokens (updateAccessToken fs now u a e) u =
        some { t with accessToken := a, expiresAt := some (now + e * 1000) }) ∧
    (lookupTok m u = none → updateAccessTokenV m now u a e = m) ∧
    (∀ t, lookupTok m u = some t →
      getTokensV (updateAccessTokenV m now u a e) u =
        some { t with accessToken := a, expiresAt := some (now + e * 1000) }) := by
  refine ⟨?_, ?_, ?_, ?_⟩
  · intro h
    have h' : lookupTok (loadTokens fs) u = none := h
    simp [updateAccessToken, h']
  · intro t ht
    have h' : lookupTok (loadTokens fs) u = some t := ht
    simp only [updateAccessToken, h']
    exact lookupTok_insertTok_self _ _ _
  · intro h
    simp [updateAccessTokenV, h]
  · intro t ht
    simp [updateAccessTokenV, ht, getTokensV, lookupTok_insertTok_self]

theorem updateAccessToken_frame_witness :
    updateAccessToken (FileState.content [("alice", demoRec)]) 0 "bob" "A2" 60 =
      FileState.content [("alice", demoRec)] ∧
    getTokens
      (updateAccessToken (FileState.content [("alice", demoRec)]) 0 "alice" "A2" 60)
      "alice" =
      some { demoRec with accessToken := "A2", expiresAt := some (0 + 60 * 1000) } :=
  ⟨(updateAccessToken_frame (FileState.content [("alice", demoRec)]) [] 0 "bob" "A2" 60).1
     (by decide),
   (updateAccessToken_frame (FileState.content [("alice", demoRec)]) [] 0 "alice" "A2" 60).2.1
     demoRec (by decide)⟩

/-- C8 (counterexample to the claim as stated): `delete` is not an
operation of every backend — the Redis backend exports `deleteTokens`, but
the file backend's `module.exports` does not. -/
theorem delete_absent_from_file_backend :
    "deleteTokens" ∈ vercelBackendExports ∧ "deleteTokens" ∉ fileBackendExports := by
  decide

/-- C8 (amended). In the one backend that implements it (Redis),
`deleteTokens` is idempotent: after a delete, `get` returns absent;
deleting twice equals deleting once; and deleting a nonexistent userId is
a no-op rather than an error. -/
theorem deleteTokensV_idempotent (m : TokenMap) (u : String) :
    getTokensV (deleteTokensV m u) u = none ∧
    deleteTokensV (deleteTokensV m u) u = deleteTokensV m u ∧
    (lookupTok m u = none → deleteTokensV m u = m) :=
  ⟨lookupTok_eraseTok_self m u, eraseTok_idem m u, eraseTok_absent m u⟩

theorem deleteTokensV_idempotent_witness :
    getTokensV (deleteTokensV [("alice", demoRec)] "alice") "alice" = none ∧
    deleteTokensV [("alice", demoRec)] "bob" = [("alice", demoRec)] :=
  ⟨(deleteTokensV_idempotent [("alice", demoRec)] "alice").1,
   (deleteTokensV_idempotent [("alice", demoRec)] "bob").2.2 (by decide)⟩

/-! ### The `GET /api/get-token` route -/

theorem isTokenExpired_true_of_stale (fs : FileState) (now : Int) (u : String)
    (t : TokenRecord) (e : Int)
    (ht : getTokens fs u = some t) (he : t.expiresAt = some e)
    (hstale : e - REFRESH_SKEW ≤ now) :
    isTokenExpired fs now u = true := by
  simp only [isTokenExpired, ht, he]
  by_cases h0 : e = 0
  · simp [h0]
  · rw [if_neg h0]
    simpa using hstale

theorem isTokenExpired_false_of_fresh (fs : FileState) (now : Int) (u : String)
    (t : TokenRecord) (e : Int)
    (hnow : 0 ≤ now)
    (ht : getTokens fs u = some t) (he : t.expiresAt = some e)
    (hfresh : now < e - REFRESH_SKEW) :
    isTokenExpired fs now u = false := by
  have hs : REFRESH_SKEW = 300000 := rfl
  simp only [isTokenExpired, ht, he]
  have h0 : e ≠ 0 := by
    intro h
    rw [h, hs] at hfresh
    omega
  rw [if_neg h0]
  simp only [decide_eq_false_iff_not, not_le]
  exact hfresh

/-- C2. A get-token call for a stored record that is stale
(`now ≥ expiresAt - 5min`) makes exactly one provider refresh call and, on
success, persists via `updateAccessToken` a record whose `refreshToken`
(and `userId`) are unchanged and whose `expiresAt` is
`now + newExpiresIn*1000`, responding with the new access token and
`refreshed = true`. -/
theorem getToken_stale_refreshes
    (fs : FileState) (now : Int) (u : String) (t : TokenRecord) (e : Int)
    (d : RefreshData) (refreshCall : String → Except String RefreshData)
    (hu : u ≠ "")
    (ht : getTokens fs u = some t)
    (he : t.expiresAt = some e)
    (hstale : e - REFRESH_SKEW ≤ now)
    (hrc : refreshCall t.refreshToken = Except.ok d) :
    getValidAccessToken fs now (some u) refreshCall =
      (GetTokenResult.ok ⟨u, d.access_token, true⟩,
       updateAccessToken fs now u d.access_token d.expires_in, 1) ∧
    getTokens (updateAccessToken fs now u d.access_token d.expires_in) u =
      some { t with accessToken := d.access_token
                    expiresAt := some (now + d.expires_in * 1000) } := by
  have hexp : isTokenExpired fs now u = true :=
    isTokenExpired_true_of_stale fs now u t e ht he hstale
  constructor
  · cases hm : loadTokens fs with
    | nil =>
        have h' : lookupTok (loadTokens fs) u = some t := ht
        rw [hm] at h'
        simp [lookupTok] at h'
    | cons p rest =>
        simp only [getValidAccessToken, hm, keysOf, List.map_cons]
        rw [if_neg hu]
        simp only [ht, hexp, hrc]
        simp
  · have h' : lookupTok (loadTokens fs) u = some t := ht
    simp only [updateAccessToken, h']
    exact lookupTok_insertTok_self _ _ _

theorem getToken_stale_refreshes_witness :
    getValidAccessToken (FileState.content [("alice", ⟨"OLD", "RT", some 100000, "alice"⟩)])
        1000000 (some "alice") (fun _ => Except.ok ⟨"NEW", 7200⟩) =
      (GetTokenResult.ok ⟨"alice", "NEW", true⟩,
       updateAccessToken (FileState.content [("alice", ⟨"OLD", "RT", some 100000, "alice"⟩)])
         1000000 "alice" "NEW" 7200, 1) :=
  (getToken_stale_refreshes
    (FileState.content [("alice", ⟨"OLD", "RT", some 100000, "alice"⟩)])
    1000000 "alice" ⟨"OLD", "RT", some 100000, "alice"⟩ 100000 ⟨"NEW", 7200⟩
    (fun _ => Except.ok ⟨"NEW", 7200⟩)
    (by decide) (by decide) rfl (by decide) rfl).1

/-- C3. A get-token call for a stored record that is fresh
(`now < expiresAt - 5min`, with a real clock `now ≥ 0`) returns the stored
access token with `refreshed = false`, leaves the store untouched, and
makes no provider call. -/
theorem getToken_fresh_no_write
    (fs : FileState) (now : Int) (u : String) (t : TokenRecord) (e : Int)
    (refreshCall : String → Except String RefreshData)
    (hnow : 0 ≤ now) (hu : u ≠ "")
    (ht : getTokens fs u = some t)
    (he : t.expiresAt = some e)
    (hfresh : now < e - REFRESH_SKEW) :
    getValidAccessToken fs now (some u) refreshCall =
      (GetTokenResult.ok ⟨u, t.accessToken, false⟩, fs, 0) := by
  have hexp : isTokenExpired fs now u = false :=
    isTokenExpired_false_of_fresh fs now u t e hnow ht he hfresh
  cases hm : loadTokens fs with
  | nil =>
      have h' : lookupTok (loadTokens fs) u = some t := ht
      rw [hm] at h'
      simp [lookupTok] at h'
  | cons p rest =>
      simp only [getValidAccessToken, hm, keysOf, List.map_cons]
      rw [if_neg hu]
      simp only [ht, hexp]
      simp

theorem getToken_fresh_no_write_witness :
    (0 : Int) ≤ 0 ∧
    getValidAccessToken (FileState.content [("alice", demoRec)]) 0 (some "alice")
        (fun _ => Except.error "offline") =
      (GetTokenResult.ok ⟨"alice", "AT0", false⟩,
       FileState.content [("alice", demoRec)], 0) :=
  ⟨by decide,
   getToken_fresh_no_write (FileState.content [("alice", demoRec)]) 0 "alice"
     demoRec 1000000 (fun _ => Except.error "offline")
     (by decide) (by decide) (by decide) (by decide) (by decide)⟩

/-- C5 (amended). A get-token call for a userId `u` (a nonempty route
parameter) with no stored record fails with a 404 and writes nothing and
calls no provider: when the store is non-empty the error names `u` and
carries the list of known userIds; when the store is empty the error is
the generic "No tokens found" message, which names neither. -/
theorem getToken_absent_notFound
    (fs : FileState) (now : Int) (u : String)
    (refreshCall : String → Except String RefreshData)
    (hu : u ≠ "") (ht : getTokens fs u = none) :
    (loadTokens fs = [] →
      getValidAccessToken fs now (some u) refreshCall =
        (GetTokenResult.notFound "No tokens found. Authorize first at /auth/login" none,
         fs, 0)) ∧
    (∀ p ps, loadTokens fs = p :: ps →
      getValidAccessToken fs now (some u) refreshCall =
        (GetTokenResult.notFound ("No tokens for user: " ++ u)
          (some (keysOf (p :: ps))), fs, 0)) := by
  constructor
  · intro hm
    simp [getValidAccessToken, hm, keysOf]
  · intro p ps hm
    simp only [getValidAccessToken, hm, keysOf, List.map_cons]
    rw [if_neg hu]
    simp only [ht]

theorem getToken_absent_notFound_witness :
    getValidAccessToken (FileState.content [("bob", demoRec)]) 0 (some "alice")
        (fun _ => Except.error "offline") =
      (GetTokenResult.notFound ("No tokens for user: " ++ "alice")
        (some (keysOf [("bob", demoRec)])),
       FileState.content [("bob", demoRec)], 0) :=
  (getToken_absent_notFound (FileState.content [("bob", demoRec)]) 0 "alice"
    (fun _ => Except.error "offline") (by decide) (by decide)).2
    ("bob", demoRec) [] rfl

/-- C5 (counterexample to the claim as stated): with an empty store, the
404 for a missing user is the generic message, which does not name the
requested userId ("alice") and carries no `availableUsers` list. -/
theorem getToken_empty_store_generic_message :
    getValidAccessToken FileState.absent 0 (some "alice")
        (fun _ => Except.error "offline") =
      (GetTokenResult.notFound "No tokens found. Authorize first at /auth/login" none,
       FileState.absent, 0) ∧
    containsStr "No tokens found. Authorize first at /auth/login" "alice" = false := by
  constructor
  · rfl
  · decide

/-! ### Token-listing pages and masking -/

theorem maskRecord_congr (r r' : TokenRecord) (h : maskAgree r r') :
    maskRecord r = maskRecord r' := by
  obtain ⟨h1, h2, h3, h4⟩ := h
  cases r with
  | mk a rt ea ui =>
      cases r' with
      | mk a' rt' ea' ui' =>
          simp only [maskAgree] at h1 h2 h3 h4
          simp only [maskRecord]
          simp [h1, h2, h3, h4]

/-- The pairing of two token maps whose entries agree on everything the
masked page can show: same key, same `expiresAt`/`userId`, and the same
leading 30 (resp. 20) characters of `accessToken` (resp. `refreshToken`). -/
def mapsMaskAgree (m m' : TokenMap) : Prop :=
  List.Forall₂ (fun p q => p.1 = q.1 ∧ maskAgree p.2 q.2) m m'

theorem maskTokens_congr (m m' : TokenMap) (h : mapsMaskAgree m m') :
    maskTokens m = maskTokens m' := by
  induction h with
  | nil => rfl
  | cons hpq hrest ih =>
      obtain ⟨hk, hr⟩ := hpq
      simp only [maskTokens, List.map_cons, List.cons.injEq] at ih ⊢
      exact ⟨by rw [Prod.ext_iff]; exact ⟨hk, maskRecord_congr _ _ hr⟩, ih⟩

theorem keysOf_congr (m m' : TokenMap) (h : mapsMaskAgree m m') :
    keysOf m = keysOf m' := by
  induction h with
  | nil => rfl
  | cons hpq hrest ih =>
      obtain ⟨hk, _⟩ := hpq
      simp only [keysOf, List.map_cons, List.cons.injEq] at ih ⊢
      exact ⟨hk, ih⟩

/-- C6 (amended, Vercel variant). The Vercel `GET /tokens` HTML page
reveals nothing of the stored tokens beyond the first 30 characters of
each `accessToken` and the first 20 of each `refreshToken`: two stores
agreeing on those prefixes (and on the non-secret fields) render the
byte-identical page, so no full raw token value can appear. -/
theorem masked_page_prefix_only (m m' : TokenMap) (h : mapsMaskAgree m m') :
    renderTokensPageVercel m = renderTokensPageVercel m' := by
  have h1 : keysOf m = keysOf m' := keysOf_congr m m' h
  have h2 : maskTokens m = maskTokens m' := maskTokens_congr m m' h
  simp only [renderTokensPageVercel, h1, h2]

/-- A record whose access-token tail (beyond 30 characters) is secret. -/
def recTailA : TokenRecord :=
  ⟨"aaaaaaaaaaaaaaaaaaaaaaaaaaaaaaSECRET_ONE", "rrrrrrrrrrrrrrrrrrrrTAIL_ONE",
   some 1000, "alice"⟩

/-- Like `recTailA` but with different secret tails. -/
def recTailB : TokenRecord :=
  ⟨"aaaaaaaaaaaaaaaaaaaaaaaaaaaaaaSECRET_TWO", "rrrrrrrrrrrrrrrrrrrrTAIL_TWO",
   some 1000, "alice"⟩

theorem masked_page_prefix_only_witness :
    renderTokensPageVercel [("alice", recTailA)] =
      renderTokensPageVercel [("alice", recTailB)] :=
  masked_page_prefix_only [("alice", recTailA)] [("alice", recTailB)]
    (List.Forall₂.cons ⟨rfl, by decide, by decide, rfl, rfl⟩ List.Forall₂.nil)

set_option maxRecDepth 8000 in
/-- C6 (counterexample to the claim as stated): the local server's
`GET /tokens` HTML page embeds `JSON.stringify` of the raw token map, so
the full raw access token of a stored record occurs verbatim in the
rendered page. -/
theorem local_page_exposes_raw_token :
    containsStr (renderTokensPageLocal [("alice", recTailA)])
      recTailA.accessToken = true := by
  decide

end EbayOAuth
